import Mathlib

/-!
Shallow embedding of the ariadne analytics service (modrinth/ariadne) and
proofs checking its specification against the code.

Each definition is translated from the Rust source file named in its doc
comment.  Machine integers are modelled as `Nat` (with the `u64` bound made
explicit where overflow matters, in the base62 codec); the `f32` monetary
amounts are modelled as rationals; `DashMap`s are modelled as association
lists built up by the same get-or-insert logic as the source.
-/

namespace Ariadne

/-- Models `DecodingError` from `src/base62.rs` (identical in
`src/util/base62.rs`). -/
inductive DecodingError where
  | InvalidBase62 (c : Char)
  | Overflow
deriving DecidableEq

deriving instance DecidableEq for Except

/-- Largest value of a Rust `u64`. -/
def U64MAX : Nat := 2 ^ 64 - 1

/-- Models `u64::checked_mul`: `None` exactly when the product overflows. -/
def checked_mul (a b : Nat) : Option Nat :=
  if a * b ≤ U64MAX then some (a * b) else none

/-- Models `u64::checked_add`: `None` exactly when the sum overflows. -/
def checked_add (a b : Nat) : Option Nat :=
  if a + b ≤ U64MAX then some (a + b) else none

/-- Models `BASE62_CHARS` from `src/base62.rs`. -/
def BASE62_CHARS : List Char :=
  ("0123456789ABCDEFGHIJKLMNOPQRSTUVWXYZabcdefghijklmnopqrstuvwxyz").data

/-- Models the `while num > 0` loop of `to_base62` (`src/base62.rs` lines
20-25): each iteration prepends the character for `num % 62` and divides
`num` by 62, so the accumulated list receives the digits most significant
first. -/
def toBase62Aux (n : Nat) (acc : List Char) : List Char :=
  if h : n = 0 then acc
  else toBase62Aux (n / 62) (BASE62_CHARS.getD (n % 62) ('0') :: acc)
termination_by n
decreasing_by exact Nat.div_lt_self (Nat.pos_of_ne_zero h) (by decide)

/-- Models `to_base62` from `src/base62.rs` (the `length` computed there is
only a capacity hint and does not affect the produced string). -/
def to_base62 (num : Nat) : String :=
  String.mk (toBase62Aux num [])

/-- Models the digit classification inside the `for` loop of `parse_base62`
(`src/base62.rs` lines 32-41): ASCII digit, ASCII uppercase, ASCII
lowercase, otherwise the `InvalidBase62` error carrying the character. -/
def b62digit (c : Char) : Except DecodingError Nat :=
  if c.isDigit then .ok (c.toNat - 48)
  else if c.isUpper then .ok (10 + (c.toNat - 65))
  else if c.isLower then .ok (36 + (c.toNat - 97))
  else .error (DecodingError.InvalidBase62 c)

/-- Character is in the base62 alphabet `[0-9A-Za-z]`. -/
def isB62 (c : Char) : Bool :=
  c.isDigit || c.isUpper || c.isLower

/-- Models the `for c in string.chars()` loop of `parse_base62`
(`src/base62.rs` lines 31-49) with accumulator `num`: on each character the
digit is resolved and `num.checked_mul(62).and_then(checked_add digit)` is
taken, returning `Overflow` when that is `None`. -/
def parseAux : List Char → Nat → Except DecodingError Nat
  | [], num => .ok num
  | c :: cs, num =>
    match b62digit c with
    | .error e => .error e
    | .ok d =>
      match (checked_mul num 62).bind (fun n => checked_add n d) with
      | some n => parseAux cs n
      | none => .error DecodingError.Overflow

/-- Models `parse_base62` from `src/base62.rs` lines 29-51; the copy in
`src/util/base62.rs` lines 14-36 is textually identical. -/
def parse_base62 (string : String) : Except DecodingError Nat :=
  parseAux string.data 0

/-- Number of base62 digits `to_base62` emits for `n` (number of loop
iterations). -/
def b62Len (n : Nat) : Nat :=
  if h : n = 0 then 0
  else b62Len (n / 62) + 1
termination_by n
decreasing_by exact Nat.div_lt_self (Nat.pos_of_ne_zero h) (by decide)

/-- Association-list lookup, modelling `DashMap::get`. -/
def alookup {κ β : Type} [DecidableEq κ] : List (κ × β) → κ → Option β
  | [], _ => none
  | (k, v) :: t, k' => if k' = k then some v else alookup t k'

/-- Association-list in-place update of an existing key, modelling mutation
through `DashMap::get_mut`. -/
def aupdate {κ β : Type} [DecidableEq κ] :
    List (κ × β) → κ → β → List (κ × β)
  | [], _, _ => []
  | (k1, v1) :: t, k, v =>
    if k1 = k then (k, v) :: t else (k1, v1) :: aupdate t k v

/-- Models `ApiError` from `src/routes/mod.rs` (payloads kept only where a
claim needs them). -/
inductive ApiError where
  | Env
  | InvalidInput (msg : String)
  | Json
  | Api
  | Authentication (msg : String)
  | Clickhouse
deriving DecidableEq

/-- Models `ApiError::status_code` from `src/routes/mod.rs` lines 24-33. -/
def ApiError.status_code : ApiError → Nat
  | .Env => 500
  | .InvalidInput _ => 400
  | .Json => 400
  | .Api => 424
  | .Authentication _ => 401
  | .Clickhouse => 500

namespace Queue

/-- Models `NumericKey` from `src/queue.rs`. -/
structure NumericKey where
  project_id : String
  site_path : String
deriving DecidableEq

/-- Models `RevenueKey` from `src/queue.rs`. -/
structure RevenueKey where
  project_id : String
deriving DecidableEq

/-- Models `AnalyticsQueue` from `src/queue.rs`: the three `DashMap`s as
association lists, `u32` view/download counters as `Nat`, `f32` revenue as
`ℚ`. -/
structure AnalyticsQueue where
  views_queue : List (NumericKey × Nat)
  downloads_queue : List (NumericKey × Nat)
  revenue_queue : List (RevenueKey × ℚ)
deriving DecidableEq

/-- Models `AnalyticsQueue::new` from `src/queue.rs`. -/
def new : AnalyticsQueue := ⟨[], [], []⟩

/-- Models `AnalyticsQueue::add_view` from `src/queue.rs` lines 32-43:
increment in place when the key exists, otherwise insert count 1. -/
def add_view (s : AnalyticsQueue) (project_id site_path : String) :
    AnalyticsQueue :=
  let key : NumericKey := ⟨project_id, site_path⟩
  match alookup s.views_queue key with
  | some v => { s with views_queue := aupdate s.views_queue key (v + 1) }
  | none => { s with views_queue := s.views_queue ++ [(key, 1)] }

/-- Models `AnalyticsQueue::add_download` from `src/queue.rs` lines 45-56. -/
def add_download (s : AnalyticsQueue) (project_id site_path : String) :
    AnalyticsQueue :=
  let key : NumericKey := ⟨project_id, site_path⟩
  match alookup s.downloads_queue key with
  | some v => { s with downloads_queue := aupdate s.downloads_queue key (v + 1) }
  | none => { s with downloads_queue := s.downloads_queue ++ [(key, 1)] }

/-- Models `AnalyticsQueue::add_revenue` from `src/queue.rs` lines 58-66:
add the amount in place when the key exists, otherwise insert it. -/
def add_revenue (s : AnalyticsQueue) (project_id : String) (revenue : ℚ) :
    AnalyticsQueue :=
  let key : RevenueKey := ⟨project_id⟩
  match alookup s.revenue_queue key with
  | some v => { s with revenue_queue := aupdate s.revenue_queue key (v + revenue) }
  | none => { s with revenue_queue := s.revenue_queue ++ [(key, revenue)] }

/-- Batch detached by one rotation of the `src/queue.rs` queue. -/
structure Batch where
  views : List (NumericKey × Nat)
  downloads : List (NumericKey × Nat)
  revenue : List (RevenueKey × ℚ)
deriving DecidableEq

/-- Models the rotation prefix of `AnalyticsQueue::index` from
`src/queue.rs` lines 69-77, step for step and in source order:
clone `views_queue`; clear `downloads_queue`; clone `downloads_queue`;
clear `views_queue`; clone `revenue_queue`; clear `revenue_queue`.
Returns the cloned batch and the queue state after the clears. -/
def index_rotate (s : AnalyticsQueue) : Batch × AnalyticsQueue :=
  let views_batch := s.views_queue
  let s1 := { s with downloads_queue := [] }
  let downloads_batch := s1.downloads_queue
  let s2 := { s1 with views_queue := [] }
  let revenue_batch := s2.revenue_queue
  let s3 := { s2 with revenue_queue := [] }
  (⟨views_batch, downloads_batch, revenue_batch⟩, s3)

end Queue

namespace Scheduled

/-- Models `DownloadKey` from `src/scheduled/analytics.rs`. -/
structure DownloadKey where
  project_id : Nat
  site_path : String
deriving DecidableEq

/-- Models `PageViewKey` from `src/scheduled/analytics.rs`. -/
structure PageViewKey where
  project_id : Option Nat
  site_path : String
deriving DecidableEq

/-- Models `AnalyticsQueue` from `src/scheduled/analytics.rs`. -/
structure AnalyticsQueue where
  views_queue : List (PageViewKey × Nat)
  downloads_queue : List (DownloadKey × Nat)
deriving DecidableEq

/-- Models `AnalyticsQueue::new` from `src/scheduled/analytics.rs`. -/
def new : AnalyticsQueue := ⟨[], []⟩

/-- Models `AnalyticsQueue::add_view` from `src/scheduled/analytics.rs`
lines 31-42. -/
def add_view (s : AnalyticsQueue) (project_id : Option Nat)
    (site_path : String) : AnalyticsQueue :=
  let key : PageViewKey := ⟨project_id, site_path⟩
  match alookup s.views_queue key with
  | some v => { s with views_queue := aupdate s.views_queue key (v + 1) }
  | none => { s with views_queue := s.views_queue ++ [(key, 1)] }

/-- Models `AnalyticsQueue::add_download` from `src/scheduled/analytics.rs`
lines 44-55. -/
def add_download (s : AnalyticsQueue) (project_id : Nat)
    (site_path : String) : AnalyticsQueue :=
  let key : DownloadKey := ⟨project_id, site_path⟩
  match alookup s.downloads_queue key with
  | some v => { s with downloads_queue := aupdate s.downloads_queue key (v + 1) }
  | none => { s with downloads_queue := s.downloads_queue ++ [(key, 1)] }

/-- Models `sqlx::Error` as far as the flush path observes it. -/
inductive SqlxError where
  | dbError
deriving DecidableEq

/-- Batch detached by one rotation of the `src/scheduled/analytics.rs`
queue. -/
structure Batch where
  views : List (PageViewKey × Nat)
  downloads : List (DownloadKey × Nat)
deriving DecidableEq

/-- Models `AnalyticsQueue::index` from `src/scheduled/analytics.rs` lines
57-100, in source order: clone `views_queue`, clear it; clone
`downloads_queue`, clear it; then, if either batch is non-empty, run the
database transaction.  The database (an external collaborator) is
abstracted by `dbOk`: `false` means `begin`, one of the `execute`s, or
`commit` returns an error, all of which the source propagates with `?`
after the queues have already been cleared. -/
def index (s : AnalyticsQueue) (dbOk : Bool) :
    (Except SqlxError Batch) × AnalyticsQueue :=
  let views_batch := s.views_queue
  let s1 := { s with views_queue := [] }
  let downloads_batch := s1.downloads_queue
  let s2 := { s1 with downloads_queue := [] }
  if views_batch ≠ [] ∨ downloads_batch ≠ [] then
    if dbOk then (.ok ⟨views_batch, downloads_batch⟩, s2)
    else (.error SqlxError.dbError, s2)
  else (.ok ⟨views_batch, downloads_batch⟩, s2)

/-- Models the scheduled flush job body from `src/main.rs` lines 78-85: the
result of `index` is matched, an error is only logged (`warn!`), and the
job returns normally either way. -/
def indexJob (s : AnalyticsQueue) (dbOk : Bool) : AnalyticsQueue :=
  (index s dbOk).2

end Scheduled

namespace RateLimit

/-- Models `PageViewEntry` from `src/scheduled/ratelimit.rs`: the peppered
hash string and the site path. -/
structure PageViewEntry where
  ip : String
  site_path : String
deriving DecidableEq

/-- State of the `views_queue` map of `RateLimitQueue`. -/
abbrev RLState := List (PageViewEntry × Nat)

/-- Models `std::net::IpAddr` as parsed from the request: an IPv4 address
as its four octets or an IPv6 address as its eight 16-bit segments. -/
inductive IpAddr where
  | v4 (a b c d : Nat)
  | v6 (s0 s1 s2 s3 s4 s5 s6 s7 : Nat)
deriving DecidableEq

/-- Uppercase hexadecimal digit characters. -/
def HEX_CHARS : List Char := ("0123456789ABCDEF").data

/-- Digit accumulation for `hexStr`. -/
def hexStrAux (n : Nat) (acc : List Char) : List Char :=
  if h : n = 0 then acc
  else hexStrAux (n / 16) (HEX_CHARS.getD (n % 16) ('0') :: acc)
termination_by n
decreasing_by exact Nat.div_lt_self (Nat.pos_of_ne_zero h) (by decide)

/-- Uppercase hexadecimal rendering of a number, as Rust `{:X}` prints a
`u16`. -/
def hexStr (n : Nat) : String :=
  if n = 0 then ("0") else String.mk (hexStrAux n [])

/-- Models `Ipv4Addr::to_string`: dotted decimal octets. -/
def ipv4_string (a b c d : Nat) : String :=
  toString a ++ (".") ++ toString b ++ (".") ++ toString c ++ (".") ++ toString d

/-- Models the normalization in `RateLimitQueue::add`
(`src/scheduled/ratelimit.rs` lines 31-34): an IPv4 address is rendered
whole, an IPv6 address is rendered as `format!("{:X?}", &segments[0..4])`,
keeping only its first four 16-bit groups. -/
def normalize_ip : IpAddr → String
  | .v4 a b c d => ipv4_string a b c d
  | .v6 s0 s1 s2 s3 _ _ _ _ =>
    ("[") ++ hexStr s0 ++ (", ") ++ hexStr s1 ++ (", ") ++ hexStr s2 ++
      (", ") ++ hexStr s3 ++ ("]")

/-- Loopback fallback for an unparsable IP
(`src/scheduled/ratelimit.rs` lines 27-29). -/
def loopback : IpAddr := .v4 127 0 0 1

/-- Models the key construction of `RateLimitQueue::add`
(`src/scheduled/ratelimit.rs` lines 27-43).  `parsed` is the result of
`ip.parse()` (`none` when unparsable, falling back to loopback).  The
SHA-256 digest and its `{:X?}` rendering come from the external `sha2`
crate and the formatter; they are modelled by the function argument `sha`,
applied to the concatenation of the normalized IP and the pepper exactly as
`hasher.update(format!("{}{}", ip, pepper))` feeds it. -/
def rl_key (sha : String → String) (pepper : String)
    (parsed : Option IpAddr) (site_path : String) : PageViewEntry :=
  let ip_addr := parsed.getD loopback
  ⟨sha (normalize_ip ip_addr ++ pepper), site_path⟩

/-- Models the map update of `RateLimitQueue::add`
(`src/scheduled/ratelimit.rs` lines 45-55): an existing counter is
incremented and the call is denied once it has reached 5; an unseen key is
inserted with counter 0 and admitted. -/
def add_key (s : RLState) (key : PageViewEntry) : Bool × RLState :=
  match alookup s key with
  | some v =>
    let s' := aupdate s key (v + 1)
    if v + 1 ≥ 5 then (false, s') else (true, s')
  | none => (true, s ++ [(key, 0)])

/-- Models `RateLimitQueue::add` end to end. -/
def add (sha : String → String) (pepper : String) (s : RLState)
    (parsed : Option IpAddr) (site_path : String) : Bool × RLState :=
  add_key s (rl_key sha pepper parsed site_path)

/-- Models `RateLimitQueue::index` from `src/scheduled/ratelimit.rs` lines
58-60: clear the whole map. -/
def index (_ : RLState) : RLState := []

/-- State after `n` successive `add` calls for the same key, starting from
the empty window. -/
def iterate (key : PageViewEntry) : Nat → RLState
  | 0 => []
  | n + 1 => (add_key (iterate key n) key).2

end RateLimit

namespace Query

/-- Models `Resolution` from `src/routes/query.rs` lines 13-24. -/
inductive Resolution where
  | FiveMinutes
  | FifteenMinutes
  | OneHour
  | SixHours
  | TwelveHours
  | OneDay
  | OneWeek
  | OneMonth
deriving DecidableEq

/-- Declaration index of a `Resolution` variant; Rust's derived
`PartialOrd` on a fieldless enum orders variants by this index. -/
def Resolution.discriminant : Resolution → Nat
  | .FiveMinutes => 0
  | .FifteenMinutes => 1
  | .OneHour => 2
  | .SixHours => 3
  | .TwelveHours => 4
  | .OneDay => 5
  | .OneWeek => 6
  | .OneMonth => 7

/-- Models the derived `PartialOrd::lt` on `Resolution`. -/
def Resolution.ltR (a b : Resolution) : Bool :=
  a.discriminant < b.discriminant

/-- Models `Resolution::convert_to_postgres` from `src/routes/query.rs`
lines 27-38, string for string (note the source maps `FiveMinutes` to
`"1 minute"`). -/
def Resolution.convert_to_postgres : Resolution → String
  | .FiveMinutes => ("1 minute")
  | .FifteenMinutes => ("15 minutes")
  | .OneHour => ("1 hour")
  | .SixHours => ("6 hours")
  | .TwelveHours => ("12 hours")
  | .OneDay => ("1 day")
  | .OneWeek => ("1 week")
  | .OneMonth => ("1 month")

/-- Models `perform_analytics_checks` from `src/routes/query.rs` lines
75-117 after the `check_is_authorized` call (the external authorization
collaborator): `interval` is `(end_date - start_date).num_seconds()` as a
signed integer; an interval below 300 seconds is rejected, otherwise the
requested resolution is clamped up to the minimum derived from the
interval and converted to its postgres string. -/
def perform_analytics_checks (interval : Int)
    (resolution : Option Resolution) : Except ApiError String :=
  if interval < 300 then
    .error (ApiError.InvalidInput ("Invalid start/end dates specified."))
  else
    let min_resolution :=
      if interval > 2 * 365 * 24 * 60 * 60 then Resolution.OneWeek
      else if interval > 90 * 24 * 60 * 60 then Resolution.OneDay
      else if interval > 30 * 24 * 60 * 60 then Resolution.OneHour
      else if interval > 7 * 24 * 60 * 60 then Resolution.FifteenMinutes
      else Resolution.FiveMinutes
    .ok (Resolution.convert_to_postgres
      (match resolution with
        | some r => if Resolution.ltR r min_resolution then min_resolution else r
        | none => min_resolution))

end Query

namespace Ingest

/-- Models Rust's `str::to_lowercase` as used on header names: lowercase
each character (on the ASCII header names involved, Unicode and per-char
ASCII lowercasing agree). -/
def to_lowercase (s : String) : String :=
  String.mk (s.data.map Char.toLower)

/-- Models `FILTERED_HEADERS` from `src/routes/ingest.rs` lines 19-40. -/
def FILTERED_HEADERS : List String :=
  ["authorization", "cookie", "modrinth-admin", "user-agent",
   "cf-connecting-ip", "cf-ipcountry", "x-forwarded-for", "x-real-ip",
   "x-vercel-ip-city", "x-vercel-ip-timezone", "x-vercel-ip-longitude",
   "x-vercel-proxy-signature", "x-vercel-ip-country-region",
   "x-vercel-forwarded-for", "x-vercel-proxied-for",
   "x-vercel-proxy-signature-ts", "x-vercel-ip-latitude",
   "x-vercel-ip-country"]

/-- Models the header filter of `downloads_ingest` (`src/routes/ingest.rs`
lines 95-100): keep a header when its lowercased name is not in
`FILTERED_HEADERS` (Rust's `to_lowercase` agrees with `String.toLower` on
the ASCII names involved). -/
def downloads_stored_headers (headers : List (String × String)) :
    List (String × String) :=
  headers.filter (fun x => !(FILTERED_HEADERS.contains (to_lowercase x.1)))

/-- Models `temp_headers` of `page_view_ingest` (`src/routes/ingest.rs`
lines 151-160): the actual request headers with names lowercased. -/
def temp_headers (req_headers : List (String × String)) :
    List (String × String) :=
  req_headers.map (fun kv => (to_lowercase kv.1, kv.2))

/-- Models the `headers` selection of `page_view_ingest`
(`src/routes/ingest.rs` lines 162-170): a server-tagged request supplying
a `headers` field uses it verbatim, otherwise the lowercased request
headers are used. -/
def page_view_headers (from_server : Bool)
    (input_headers : Option (List (String × String)))
    (req_headers : List (String × String)) : List (String × String) :=
  if from_server then
    match input_headers with
    | some headers => headers
    | none => temp_headers req_headers
  else temp_headers req_headers

/-- Models the stored header map of `page_view_ingest`
(`src/routes/ingest.rs` line 192): the selected headers filtered by exact
membership in `FILTERED_HEADERS`, without lowercasing. -/
def page_view_stored_headers (from_server : Bool)
    (input_headers : Option (List (String × String)))
    (req_headers : List (String × String)) : List (String × String) :=
  (page_view_headers from_server input_headers req_headers).filter
    (fun x => !(FILTERED_HEADERS.contains x.1))

end Ingest

/-- Modelled from the spec: the `POST /v1/revenue` handler is not among the
source files (src holds only `AnalyticsQueue::add_revenue` in
`src/queue.rs` and the HTTP wiring in `src/main.rs`); following the spec,
the admin-key-gated handler takes `{project_id, revenue}`, rejects any
request with `revenue > 5.0` with a client (validation) error and no state
mutation, and otherwise adds the amount to the revenue buffer.  The `f32`
amount is modelled as a rational. -/
def revenue_ingest (s : Queue.AnalyticsQueue) (project_id : String)
    (revenue : ℚ) : Except ApiError Queue.AnalyticsQueue :=
  if revenue > 5 then
    .error (ApiError.InvalidInput ("revenue exceeds the per-request cap"))
  else
    .ok (Queue.add_revenue s project_id revenue)

/-! Theorems -/

/-- Basic association-list fact: looking up a key after an in-place update
of that key yields the new value, provided the key was present. -/
theorem alookup_aupdate_self {κ β : Type} [DecidableEq κ]
    (m : List (κ × β)) (k : κ) (v w : β) (h : alookup m k = some v) :
    alookup (aupdate m k w) k = some w := by
  induction m with
  | nil => simp [alookup] at h
  | cons p t ih =>
    obtain ⟨k1, v1⟩ := p
    by_cases hk : k1 = k
    · subst hk
      simp [aupdate, alookup]
    · have hk' : ¬ k = k1 := fun hh => hk hh.symm
      simp only [alookup, if_neg hk'] at h
      simp only [aupdate, if_neg hk, alookup, if_neg hk']
      exact ih h

/-- Basic association-list fact: an in-place update of one key does not
change the lookup of a different key. -/
theorem alookup_aupdate_ne {κ β : Type} [DecidableEq κ]
    (m : List (κ × β)) (k k' : κ) (w : β) (h : k' ≠ k) :
    alookup (aupdate m k w) k' = alookup m k' := by
  induction m with
  | nil => rfl
  | cons p t ih =>
    obtain ⟨k1, v1⟩ := p
    by_cases hk : k1 = k
    · subst hk
      simp only [aupdate, if_pos rfl, alookup, if_neg h]
    · simp only [aupdate, if_neg hk, alookup]
      by_cases hk' : k' = k1
      · simp [hk']
      · simp only [if_neg hk']
        exact ih

/-- Basic association-list fact: appending a fresh binding does not change
the lookup of a different key. -/
theorem alookup_append_ne {κ β : Type} [DecidableEq κ]
    (m : List (κ × β)) (k k' : κ) (v : β) (h : k' ≠ k) :
    alookup (m ++ [(k, v)]) k' = alookup m k' := by
  induction m with
  | nil => simp [alookup, if_neg h]
  | cons p t ih =>
    by_cases hk' : k' = p.1
    · simp [alookup, hk']
    · simpa [alookup, if_neg hk'] using ih

/-- C1: evaluation of the failing input on `src/queue.rs`: one
`add_download` before `index` stores count 1 under its key, yet the batch
detached by the rotation inside `index` has an empty `downloads` component
(the source clears `downloads_queue` before cloning it — the two `clear`
calls are transposed), so the added download count is dropped instead of
being written; the post-rotation buffer is empty as claimed. -/
theorem queue_index_rotation_drops_downloads :
    (Queue.add_download Queue.new ("p") ("/mod/foo")).downloads_queue
        = [(⟨("p"), ("/mod/foo")⟩, 1)]
    ∧ (Queue.index_rotate
        (Queue.add_download Queue.new ("p") ("/mod/foo"))).1.downloads = []
    ∧ (Queue.index_rotate
        (Queue.add_download Queue.new ("p") ("/mod/foo"))).2 = Queue.new :=
  ⟨rfl, rfl, rfl⟩

/-- C5: evaluation at the failing input: a 300-second interval with no
requested resolution passes validation and selects
`Resolution.FiveMinutes`, but `convert_to_postgres` renders it as a
one-minute bucket, not the five-minute bucket the claim states; the
coarser thresholds convert as claimed. -/
theorem query_five_minute_bucket_is_one_minute :
    Query.perform_analytics_checks 300 none = .ok ("1 minute")
    ∧ Query.Resolution.convert_to_postgres Query.Resolution.FiveMinutes
        = ("1 minute")
    ∧ ("1 minute") ≠ ("5 minutes")
    ∧ Query.perform_analytics_checks (7 * 24 * 60 * 60 + 1) none
        = .ok ("15 minutes")
    ∧ Query.perform_analytics_checks (30 * 24 * 60 * 60 + 1) none
        = .ok ("1 hour")
    ∧ Query.perform_analytics_checks (90 * 24 * 60 * 60 + 1) none
        = .ok ("1 day")
    ∧ Query.perform_analytics_checks (2 * 365 * 24 * 60 * 60 + 1) none
        = .ok ("1 week") :=
  ⟨rfl, rfl, by decide, rfl, rfl, rfl, rfl⟩

/-- C10: every views/downloads aggregate query whose interval
`end_date - start_date` is shorter than 300 seconds (including a negative
interval when `end_date` precedes `start_date`), with any requested
resolution, is rejected by `perform_analytics_checks` with the
`InvalidInput` client error (HTTP 400) before any data is queried. -/
theorem query_minimum_interval (start_date end_date : Int)
    (resolution : Option Query.Resolution)
    (h : end_date - start_date < 300) :
    Query.perform_analytics_checks (end_date - start_date) resolution
      = .error (ApiError.InvalidInput ("Invalid start/end dates specified."))
    ∧ (ApiError.InvalidInput
        ("Invalid start/end dates specified.")).status_code = 400 := by
  refine ⟨?_, rfl⟩
  unfold Query.perform_analytics_checks
  rw [if_pos h]

/-- Witness for C10 at `start_date = 1000`, `end_date = 0`. -/
theorem query_minimum_interval_witness :
    Query.perform_analytics_checks ((0 : Int) - 1000) none
      = .error (ApiError.InvalidInput ("Invalid start/end dates specified."))
    ∧ (ApiError.InvalidInput
        ("Invalid start/end dates specified.")).status_code = 400 :=
  query_minimum_interval 1000 0 none (by decide)

/-- C9: every revenue ingestion request with amount strictly greater than
5 is rejected with the `InvalidInput` client error (HTTP 400) and the
buffer is not touched, while a request with amount exactly 5 is accepted
and its amount lands in the revenue buffer. -/
theorem revenue_per_request_cap (s : Queue.AnalyticsQueue)
    (project_id : String) (revenue : ℚ) (h : 5 < revenue) :
    revenue_ingest s project_id revenue
      = .error (ApiError.InvalidInput ("revenue exceeds the per-request cap"))
    ∧ (ApiError.InvalidInput
        ("revenue exceeds the per-request cap")).status_code = 400
    ∧ revenue_ingest s project_id 5 = .ok (Queue.add_revenue s project_id 5)
    ∧ alookup (Queue.add_revenue Queue.new project_id 5).revenue_queue
        ⟨project_id⟩ = some 5 := by
  refine ⟨?_, rfl, ?_, ?_⟩
  · unfold revenue_ingest
    rw [if_pos h]
  · unfold revenue_ingest
    rw [if_neg (lt_irrefl (5 : ℚ))]
  · simp [Queue.add_revenue, Queue.new, alookup]

/-- Witness for C9 with an empty queue, project `"p"` and amount 6. -/
theorem revenue_per_request_cap_witness :
    revenue_ingest Queue.new ("p") 6
      = .error (ApiError.InvalidInput ("revenue exceeds the per-request cap"))
    ∧ (ApiError.InvalidInput
        ("revenue exceeds the per-request cap")).status_code = 400
    ∧ revenue_ingest Queue.new ("p") 5
        = .ok (Queue.add_revenue Queue.new ("p") 5)
    ∧ alookup (Queue.add_revenue Queue.new ("p") 5).revenue_queue
        ⟨("p")⟩ = some 5 :=
  revenue_per_request_cap Queue.new ("p") 6 (by norm_num)

/-- C8: when the durable write inside `AnalyticsQueue::index`
(`src/scheduled/analytics.rs`) fails after the queues have been detached,
the buffer keeps none of the detached entries — both per-kind maps are
empty on the error return, nothing is restored — and the scheduled flush
job from `src/main.rs` swallows the error, confining the failure to that
invocation. -/
theorem failed_flush_discards_batch (s : Scheduled.AnalyticsQueue)
    (h : s.views_queue ≠ []) :
    (Scheduled.index s false).2 = Scheduled.new
    ∧ (Scheduled.index s false).1 = .error Scheduled.SqlxError.dbError
    ∧ Scheduled.indexJob s false = Scheduled.new := by
  refine ⟨?_, ?_, ?_⟩ <;>
    simp [Scheduled.index, Scheduled.indexJob, Scheduled.new, h]

/-- Witness for C8 on a buffer holding one view count. -/
theorem failed_flush_discards_batch_witness :
    (Scheduled.index ⟨[(⟨some 1, ("/mod/foo")⟩, 3)], []⟩ false).2
        = Scheduled.new
    ∧ (Scheduled.index ⟨[(⟨some 1, ("/mod/foo")⟩, 3)], []⟩ false).1
        = .error Scheduled.SqlxError.dbError
    ∧ Scheduled.indexJob ⟨[(⟨some 1, ("/mod/foo")⟩, 3)], []⟩ false
        = Scheduled.new :=
  failed_flush_discards_batch ⟨[(⟨some 1, ("/mod/foo")⟩, 3)], []⟩ (by decide)

/-- Counter evolution of the rate limiter: after `n + 1` successive calls
for the same key starting from an empty window, the stored counter is `n`
(the first call inserts 0 and each later call adds 1). -/
theorem rl_iterate_lookup (key : RateLimit.PageViewEntry) (n : Nat) :
    alookup (RateLimit.iterate key (n + 1)) key = some n := by
  induction n with
  | zero => simp [RateLimit.iterate, RateLimit.add_key, alookup]
  | succ m ih =>
    show alookup (RateLimit.add_key (RateLimit.iterate key (m + 1)) key).2 key
        = some (m + 1)
    simp only [RateLimit.add_key, ih]
    by_cases h5 : m + 1 ≥ 5
    · rw [if_pos h5]
      exact alookup_aupdate_self _ _ _ _ ih
    · rw [if_neg h5]
      exact alookup_aupdate_self _ _ _ _ ih

/-- C2: for a fixed `(hashed-ip, path)` key starting from an empty window,
the `n`-th call to `RateLimitQueue::add` returns `true` exactly when
`n ≤ 5` (so the first 5 calls are admitted and every call from the 6th
onward is denied); the first call stores counter 0 without incrementing
it; and after `RateLimitQueue::index` clears the window, the next call for
the key is admitted again with a fresh stored counter of 0. -/
theorem rate_limiter_admits_exactly_five (key : RateLimit.PageViewEntry)
    (n : Nat) (h : 1 ≤ n) (s : RateLimit.RLState) :
    (RateLimit.add_key (RateLimit.iterate key (n - 1)) key).1 = decide (n ≤ 5)
    ∧ alookup (RateLimit.iterate key 1) key = some 0
    ∧ (RateLimit.add_key (RateLimit.index s) key).1 = true
    ∧ alookup (RateLimit.add_key (RateLimit.index s) key).2 key = some 0 := by
  refine ⟨?_, rl_iterate_lookup key 0, ?_, ?_⟩
  · match n, h with
    | 1, _ => simp [RateLimit.iterate, RateLimit.add_key, alookup]
    | m + 2, _ =>
      have hl := rl_iterate_lookup key m
      show (RateLimit.add_key (RateLimit.iterate key (m + 1)) key).1
          = decide (m + 2 ≤ 5)
      simp only [RateLimit.add_key, hl]
      by_cases h5 : m + 1 ≥ 5
      · rw [if_pos h5]
        have hn : ¬ (m + 2 ≤ 5) := by omega
        simp [hn]
      · rw [if_neg h5]
        have hy : m + 2 ≤ 5 := by omega
        simp [hy]
  · simp [RateLimit.index, RateLimit.add_key, alookup]
  · simp [RateLimit.index, RateLimit.add_key, alookup]

/-- Witness for C2 at the key `("h", "/p")`, the 6th call, and an
arbitrary pre-reset window. -/
theorem rate_limiter_admits_exactly_five_witness :
    (RateLimit.add_key (RateLimit.iterate ⟨("h"), ("/p")⟩ (6 - 1))
        ⟨("h"), ("/p")⟩).1 = decide (6 ≤ 5)
    ∧ alookup (RateLimit.iterate ⟨("h"), ("/p")⟩ 1) ⟨("h"), ("/p")⟩ = some 0
    ∧ (RateLimit.add_key (RateLimit.index [(⟨("h"), ("/p")⟩, 9)])
        ⟨("h"), ("/p")⟩).1 = true
    ∧ alookup (RateLimit.add_key (RateLimit.index [(⟨("h"), ("/p")⟩, 9)])
        ⟨("h"), ("/p")⟩).2 ⟨("h"), ("/p")⟩ = some 0 :=
  rate_limiter_admits_exactly_five ⟨("h"), ("/p")⟩ 6 (by decide)
    [(⟨("h"), ("/p")⟩, 9)]

/-- One `add_key` call touches only its own key: the stored counter of any
other key is unchanged. -/
theorem add_key_other (s : RateLimit.RLState)
    (k k' : RateLimit.PageViewEntry) (h : k' ≠ k) :
    alookup (RateLimit.add_key s k).2 k' = alookup s k' := by
  unfold RateLimit.add_key
  cases hl : alookup s k with
  | none => simpa using alookup_append_ne s k k' 0 h
  | some v =>
    by_cases h5 : v + 1 ≥ 5
    · simp only [if_pos h5]
      exact alookup_aupdate_ne s k k' (v + 1) h
    · simp only [if_neg h5]
      exact alookup_aupdate_ne s k k' (v + 1) h

/-- C7: the rate-limit key of `RateLimitQueue::add` depends only on the
normalized form of the parsed client IP and the site path (so the same raw
IP string with the same path always yields the same key); an IPv6 address
contributes only its first four 16-bit groups, so addresses differing only
in the last four groups share a key; two different site paths always give
distinct keys; and a call under one path leaves the stored counter of the
same IP under another path untouched. -/
theorem rate_limit_key_determinism (sha : String → String) (pepper : String)
    (p1 p2 : Option RateLimit.IpAddr) (path path' : String)
    (s : RateLimit.RLState) (s0 s1 s2 s3 a b c d a' b' c' d' : Nat) :
    (RateLimit.normalize_ip (p1.getD RateLimit.loopback)
        = RateLimit.normalize_ip (p2.getD RateLimit.loopback) →
      RateLimit.rl_key sha pepper p1 path = RateLimit.rl_key sha pepper p2 path)
    ∧ RateLimit.rl_key sha pepper (some (.v6 s0 s1 s2 s3 a b c d)) path
        = RateLimit.rl_key sha pepper (some (.v6 s0 s1 s2 s3 a' b' c' d')) path
    ∧ (path ≠ path' →
        RateLimit.rl_key sha pepper p1 path
          ≠ RateLimit.rl_key sha pepper p2 path')
    ∧ (path ≠ path' →
        alookup (RateLimit.add sha pepper s p1 path).2
            (RateLimit.rl_key sha pepper p2 path')
          = alookup s (RateLimit.rl_key sha pepper p2 path')) := by
  refine ⟨?_, rfl, ?_, ?_⟩
  · intro h
    simp only [RateLimit.rl_key]
    rw [h]
  · intro h hkey
    exact h (congrArg RateLimit.PageViewEntry.site_path hkey)
  · intro h
    exact add_key_other s (RateLimit.rl_key sha pepper p1 path)
      (RateLimit.rl_key sha pepper p2 path')
      (fun hh => h ((congrArg RateLimit.PageViewEntry.site_path hh).symm))

/-- Witness for C7: a concrete hash function, pepper, IPv6 address pair
differing only in the last four groups, and the two paths "/a" and "/b". -/
theorem rate_limit_key_determinism_witness :
    RateLimit.rl_key (fun x => x) ("pep") (some (.v6 1 2 3 4 5 6 7 8)) ("/a")
        = RateLimit.rl_key (fun x => x) ("pep")
            (some (.v6 1 2 3 4 5 6 7 8)) ("/a")
    ∧ RateLimit.rl_key (fun x => x) ("pep") (some (.v6 1 2 3 4 5 6 7 8)) ("/a")
        = RateLimit.rl_key (fun x => x) ("pep")
            (some (.v6 1 2 3 4 9 10 11 12)) ("/a")
    ∧ RateLimit.rl_key (fun x => x) ("pep") (some (.v6 1 2 3 4 5 6 7 8)) ("/a")
        ≠ RateLimit.rl_key (fun x => x) ("pep")
            (some (.v6 1 2 3 4 5 6 7 8)) ("/b")
    ∧ alookup (RateLimit.add (fun x => x) ("pep") []
            (some (.v6 1 2 3 4 5 6 7 8)) ("/a")).2
          (RateLimit.rl_key (fun x => x) ("pep")
            (some (.v6 1 2 3 4 5 6 7 8)) ("/b"))
        = alookup ([] : RateLimit.RLState)
          (RateLimit.rl_key (fun x => x) ("pep")
            (some (.v6 1 2 3 4 5 6 7 8)) ("/b")) := by
  have h := rate_limit_key_determinism (fun x => x) ("pep")
    (some (.v6 1 2 3 4 5 6 7 8)) (some (.v6 1 2 3 4 5 6 7 8)) ("/a") ("/b")
    [] 1 2 3 4 5 6 7 8 9 10 11 12
  exact ⟨h.1 rfl, h.2.1, h.2.2.1 (by decide), h.2.2.2 (by decide)⟩

/-- C4 counterexample: a server-tagged page view supplying the header name
`Authorization` (capital A) in the `headers` field of the request body is
stored unfiltered — the page-view filter compares names exactly, without
lowercasing, and the deny-list holds only `authorization` — so the stored
map retains a header whose name matches the deny-list case-insensitively. -/
theorem header_filter_case_counterexample :
    Ingest.page_view_stored_headers true
        (some [(("Authorization"), ("secret"))]) []
        = [(("Authorization"), ("secret"))]
    ∧ Ingest.FILTERED_HEADERS.contains (Ingest.to_lowercase ("Authorization")) = true
    ∧ Ingest.FILTERED_HEADERS.contains ("Authorization") = false := by
  refine ⟨?_, ?_, ?_⟩ <;> decide

/-- C4 amended: the deny-list is enforced case-insensitively for download
ingestion (names are lowercased before the membership check); for page
views, the actual request headers are lowercased before the exact-match
filter, so each stored name is the lowercase form of a request header name
and no deny-listed name survives in any letter case; but headers supplied
in the server-provided `headers` field are filtered by exact match only,
so only their exactly-lowercase deny-listed names are stripped. -/
theorem header_filter_deny_list (hs req sh : List (String × String)) :
    (∀ p ∈ Ingest.downloads_stored_headers hs,
       Ingest.FILTERED_HEADERS.contains (Ingest.to_lowercase p.1) = false)
    ∧ (∀ p ∈ Ingest.page_view_stored_headers false none req,
       Ingest.FILTERED_HEADERS.contains p.1 = false
       ∧ ∃ q ∈ req, p.1 = Ingest.to_lowercase q.1 ∧ p.2 = q.2)
    ∧ (∀ p ∈ Ingest.page_view_stored_headers true (some sh) req,
       Ingest.FILTERED_HEADERS.contains p.1 = false) := by
  refine ⟨?_, ?_, ?_⟩
  · intro p hp
    rw [Ingest.downloads_stored_headers, List.mem_filter] at hp
    simpa using hp.2
  · intro p hp
    simp only [Ingest.page_view_stored_headers, Ingest.page_view_headers,
      Bool.false_eq_true, if_false, Ingest.temp_headers, List.mem_filter,
      List.mem_map] at hp
    obtain ⟨⟨q, hq, hqp⟩, hf⟩ := hp
    refine ⟨by simpa using hf, q, hq, ?_, ?_⟩
    · rw [← hqp]
    · rw [← hqp]
  · intro p hp
    simp only [Ingest.page_view_stored_headers, Ingest.page_view_headers,
      if_true, List.mem_filter] at hp
    simpa using hp.2

/-- Witness for C4's amended statement on concrete header maps containing
a custom header and a deny-listed one. -/
theorem header_filter_deny_list_witness :
    Ingest.FILTERED_HEADERS.contains (Ingest.to_lowercase ("X-Custom")) = false
    ∧ (Ingest.FILTERED_HEADERS.contains ("x-custom") = false
       ∧ ∃ q ∈ [(("X-Custom"), ("v")), (("Cookie"), ("c"))],
           ("x-custom") = Ingest.to_lowercase q.1 ∧ ("v") = q.2)
    ∧ Ingest.FILTERED_HEADERS.contains ("X-Custom") = false := by
  have h := header_filter_deny_list [(("X-Custom"), ("v"))]
    [(("X-Custom"), ("v")), (("Cookie"), ("c"))] [(("X-Custom"), ("v"))]
  exact ⟨h.1 (("X-Custom"), ("v")) (by decide),
    h.2.1 (("x-custom"), ("v")) (by decide),
    h.2.2 (("X-Custom"), ("v")) (by decide)⟩

/-- Unfolding lemma for `toBase62Aux` at zero. -/
theorem toBase62Aux_zero (acc : List Char) : toBase62Aux 0 acc = acc := by
  simp [toBase62Aux]

/-- Unfolding lemma for `toBase62Aux` at a positive number. -/
theorem toBase62Aux_pos (n : Nat) (acc : List Char) (h : n ≠ 0) :
    toBase62Aux n acc
      = toBase62Aux (n / 62) (BASE62_CHARS.getD (n % 62) ('0') :: acc) := by
  rw [toBase62Aux]
  simp [h]

/-- Unfolding lemma for `b62Len` at zero. -/
theorem b62Len_zero : b62Len 0 = 0 := by
  simp [b62Len]

/-- Unfolding lemma for `b62Len` at a positive number. -/
theorem b62Len_pos (n : Nat) (h : n ≠ 0) : b62Len n = b62Len (n / 62) + 1 := by
  rw [b62Len]
  simp [h]

/-- The checked multiply-then-add step of the decoder succeeds exactly when
the combined value stays within `u64` range, in which case it produces
that value. -/
theorem checked_step (num d : Nat) :
    (checked_mul num 62).bind (fun n => checked_add n d)
      = if num * 62 + d ≤ U64MAX then some (num * 62 + d) else none := by
  by_cases h1 : num * 62 ≤ U64MAX
  · simp only [checked_mul, checked_add, if_pos h1]
    rfl
  · have h2 : ¬ (num * 62 + d ≤ U64MAX) := by omega
    simp only [checked_mul, checked_add, if_neg h1, if_neg h2]
    rfl

/-- Decoder step on a character that resolves to digit `d` without
overflow. -/
theorem parseAux_cons_ok (c : Char) (cs : List Char) (num d : Nat)
    (hd : b62digit c = .ok d) (hb : num * 62 + d ≤ U64MAX) :
    parseAux (c :: cs) num = parseAux cs (num * 62 + d) := by
  simp only [parseAux, hd, checked_step, if_pos hb]

/-- Decoder step on a character that resolves to digit `d` but overflows
the `u64` accumulator. -/
theorem parseAux_cons_over (c : Char) (cs : List Char) (num d : Nat)
    (hd : b62digit c = .ok d) (hb : ¬ (num * 62 + d ≤ U64MAX)) :
    parseAux (c :: cs) num = .error DecodingError.Overflow := by
  simp only [parseAux, hd, checked_step, if_neg hb]

/-- Decoder step on a character outside the alphabet. -/
theorem parseAux_cons_err (c : Char) (cs : List Char) (num : Nat)
    (e : DecodingError) (hd : b62digit c = .error e) :
    parseAux (c :: cs) num = .error e := by
  simp only [parseAux, hd]

/-- Every digit value below 62 decodes back from its alphabet character. -/
theorem b62digit_encode : ∀ d < 62, b62digit (BASE62_CHARS.getD d ('0')) = .ok d := by
  decide

/-- Decoding the digits that `toBase62Aux` emits for `n` on top of a prior
accumulator `num` yields `num * 62 ^ b62Len n + n` and continues with the
rest of the string, provided that the combined value fits in a `u64`. -/
theorem parseAux_toBase62Aux (n : Nat) : ∀ (acc : List Char) (num : Nat),
    num * 62 ^ b62Len n + n ≤ U64MAX →
    parseAux (toBase62Aux n acc) num
      = parseAux acc (num * 62 ^ b62Len n + n) := by
  induction n using Nat.strong_induction_on with
  | _ n ih =>
    intro acc num hb
    by_cases h : n = 0
    · subst h
      simp [toBase62Aux_zero, b62Len_zero]
    · rw [b62Len_pos n h] at hb ⊢
      rw [toBase62Aux_pos n acc h]
      set k := b62Len (n / 62) with hk
      have e1 : num * 62 ^ (k + 1) = num * 62 ^ k * 62 := by
        rw [pow_succ, ← mul_assoc]
      have hdm : n / 62 * 62 + n % 62 = n := Nat.div_add_mod' n 62
      have key : (num * 62 ^ k + n / 62) * 62 + n % 62
          = num * 62 ^ (k + 1) + n := by
        rw [e1, Nat.add_mul, Nat.add_assoc, hdm]
      have hb2 : (num * 62 ^ k + n / 62) * 62 + n % 62 ≤ U64MAX := by
        rw [key]
        exact hb
      have hih : num * 62 ^ k + n / 62 ≤ U64MAX := by
        omega
      rw [ih (n / 62) (Nat.div_lt_self (Nat.pos_of_ne_zero h) (by decide))
        (BASE62_CHARS.getD (n % 62) ('0') :: acc) num hih]
      rw [parseAux_cons_ok _ _ _ (n % 62)
        (b62digit_encode (n % 62) (Nat.mod_lt n (by decide))) hb2]
      rw [key]

/-- C3: base62 round trip — for every value `n` in `u64` range,
`parse_base62 (to_base62 n)` returns `Ok n`. -/
theorem base62_round_trip (n : Nat) (h : n ≤ U64MAX) :
    parse_base62 (to_base62 n) = .ok n := by
  have hmain := parseAux_toBase62Aux n [] 0 (by simpa using h)
  simpa [parse_base62, to_base62, parseAux] using hmain

/-- Witness for C3 at `n = 123456789`. -/
theorem base62_round_trip_witness :
    parse_base62 (to_base62 123456789) = .ok 123456789 :=
  base62_round_trip 123456789 (by decide)

/-- A character outside the alphabet makes `b62digit` fail with
`InvalidBase62` carrying that character. -/
theorem b62digit_invalid (c : Char) (h : isB62 c = false) :
    b62digit c = .error (DecodingError.InvalidBase62 c) := by
  simp only [isB62, Bool.or_eq_false_iff] at h
  obtain ⟨⟨h1, h2⟩, h3⟩ := h
  simp [b62digit, h1, h2, h3]

/-- A character inside the alphabet resolves to some digit. -/
theorem b62digit_valid (c : Char) (h : isB62 c = true) :
    ∃ d, b62digit c = .ok d := by
  unfold b62digit
  split_ifs with h1 h2 h3
  · exact ⟨_, rfl⟩
  · exact ⟨_, rfl⟩
  · exact ⟨_, rfl⟩
  · simp [isB62, h1, h2, h3] at h

/-- On a list of characters that all lie inside the alphabet, the decoder
loop can only fail with `Overflow`, never with `InvalidBase62`. -/
theorem parseAux_valid_overflow : ∀ (cs : List Char) (num : Nat),
    (∀ c ∈ cs, isB62 c = true) →
    ∀ e, parseAux cs num = .error e → e = DecodingError.Overflow := by
  intro cs
  induction cs with
  | nil =>
    intro num _ e he
    simp [parseAux] at he
  | cons c cs ih =>
    intro num hall e he
    have hc : isB62 c = true := hall c (List.mem_cons_self c cs)
    obtain ⟨d, hd⟩ := b62digit_valid c hc
    by_cases hbd : num * 62 + d ≤ U64MAX
    · rw [parseAux_cons_ok c cs num d hd hbd] at he
      exact ih (num * 62 + d) (fun x hx => hall x (List.mem_cons_of_mem c hx)) e he
    · rw [parseAux_cons_over c cs num d hd hbd] at he
      injection he with h2
      exact h2.symm

/-- On a character list containing a character outside the alphabet, the
decoder's result is determined by the accumulation of the valid prefix
(the characters before the first invalid one): if that accumulation
succeeds, the decoder fails with `InvalidBase62` carrying the first
invalid character; if it fails, the decoder returns that failure. -/
theorem parseAux_invalid_det : ∀ (cs : List Char) (num : Nat),
    (∃ c ∈ cs, isB62 c = false) →
    ∃ c, cs.find? (fun x => !(isB62 x)) = some c ∧
      parseAux cs num
        = (match parseAux (cs.takeWhile isB62) num with
           | .ok _ => .error (DecodingError.InvalidBase62 c)
           | .error e => .error e) := by
  intro cs
  induction cs with
  | nil =>
    intro num h
    simp at h
  | cons c cs ih =>
    intro num h
    by_cases hc : isB62 c = true
    · have hfind : (c :: cs).find? (fun x => !(isB62 x))
          = cs.find? (fun x => !(isB62 x)) :=
        List.find?_cons_of_neg _ (by simp [hc])
      have htake : (c :: cs).takeWhile isB62 = c :: cs.takeWhile isB62 := by
        simp [List.takeWhile_cons, hc]
      obtain ⟨d, hd⟩ := b62digit_valid c hc
      have htail : ∃ x ∈ cs, isB62 x = false := by
        rcases h with ⟨x, hx, hxf⟩
        rcases List.mem_cons.mp hx with rfl | hx'
        · rw [hc] at hxf
          cases hxf
        · exact ⟨x, hx', hxf⟩
      by_cases hbd : num * 62 + d ≤ U64MAX
      · obtain ⟨c', hf', he'⟩ := ih (num * 62 + d) htail
        refine ⟨c', by rw [hfind]; exact hf', ?_⟩
        rw [parseAux_cons_ok c cs num d hd hbd, htake,
          parseAux_cons_ok c (cs.takeWhile isB62) num d hd hbd]
        exact he'
      · obtain ⟨c', hf'⟩ : ∃ x, cs.find? (fun x => !(isB62 x)) = some x := by
          rcases htail with ⟨x, hx, hxf⟩
          exact Option.isSome_iff_exists.mp
            (List.find?_isSome.mpr ⟨x, hx, by simp [hxf]⟩)
        refine ⟨c', by rw [hfind]; exact hf', ?_⟩
        rw [parseAux_cons_over c cs num d hd hbd, htake,
          parseAux_cons_over c (cs.takeWhile isB62) num d hd hbd]
    · have hcf : isB62 c = false := by
        simpa using hc
      have htake : (c :: cs).takeWhile isB62 = [] := by
        simp [List.takeWhile_cons, hcf]
      refine ⟨c, List.find?_cons_of_pos _ (by simp [hcf]), ?_⟩
      rw [parseAux_cons_err c cs num _ (b62digit_invalid c hcf), htake]
      rfl

/-- C6 counterexample: the string of eleven `z`s followed by `!` contains
the character `!` outside `[0-9A-Za-z]`, yet `parse_base62` fails with
`Overflow` — the positional accumulation of the valid prefix exceeds
`u64::MAX` before the invalid character is reached — not with
`InvalidBase62 '!'` as the claim states. -/
theorem base62_invalid_char_counterexample :
    ('!' ∈ ("zzzzzzzzzzz!").data ∧ isB62 ('!') = false)
    ∧ parse_base62 ("zzzzzzzzzzz!") = .error DecodingError.Overflow
    ∧ parse_base62 ("zzzzzzzzzzz!")
        ≠ .error (DecodingError.InvalidBase62 ('!')) := by
  refine ⟨⟨by decide, rfl⟩, by decide, ?_⟩
  intro hcontra
  rw [show parse_base62 ("zzzzzzzzzzz!") = .error DecodingError.Overflow
    by decide] at hcontra
  injection hcontra with h
  exact DecodingError.noConfusion h

/-- C6 amended: on every string containing at least one character outside
`[0-9A-Za-z]`, `parse_base62` never succeeds, and its error is exactly
determined: it equals `InvalidBase62` carrying the first such character
when the positional accumulation of the valid prefix before that
character (`takeWhile isB62`) succeeds within `u64`, and equals the
failure of that accumulation — which can only be `Overflow` — when it
does not. -/
theorem base62_invalid_char (s : String)
    (h : ∃ c ∈ s.data, isB62 c = false) :
    ∃ c, s.data.find? (fun x => !(isB62 x)) = some c
      ∧ isB62 c = false
      ∧ parse_base62 s
          = (match parseAux (s.data.takeWhile isB62) 0 with
             | .ok _ => .error (DecodingError.InvalidBase62 c)
             | .error e => .error e)
      ∧ (∀ e, parseAux (s.data.takeWhile isB62) 0 = .error e →
          e = DecodingError.Overflow) := by
  obtain ⟨c, hf, he⟩ := parseAux_invalid_det s.data 0 h
  refine ⟨c, hf, ?_, he, ?_⟩
  · have hp := List.find?_some hf
    simpa using hp
  · intro e hev
    refine parseAux_valid_overflow (s.data.takeWhile isB62) 0 ?_ e hev
    intro x hx
    exact List.mem_takeWhile_imp hx

/-- Witness for C6's amended statement: on the string `"a!"` the valid
prefix `"a"` accumulates without overflow, so the parse fails with
`InvalidBase62` carrying `'!'`. -/
theorem base62_invalid_char_witness :
    parse_base62 ("a!") = .error (DecodingError.InvalidBase62 ('!')) := by
  obtain ⟨c, hf, hc, heq, hov⟩ :=
    base62_invalid_char ("a!") ⟨'!', by decide, by decide⟩
  have he : ("a!").data.find? (fun x => !(isB62 x)) = some ('!') := by decide
  injection he.symm.trans hf with hc2
  subst hc2
  rw [show parseAux (("a!").data.takeWhile isB62) 0 = .ok 36 from by decide]
    at heq
  exact heq

/-- Basic association-list fact: appending a binding for an absent key
makes it found with the appended value. -/
theorem alookup_append_self {κ β : Type} [DecidableEq κ]
    (m : List (κ × β)) (k : κ) (v : β) (h : alookup m k = none) :
    alookup (m ++ [(k, v)]) k = some v := by
  induction m with
  | nil => simp [alookup]
  | cons p t ih =>
    obtain ⟨k1, v1⟩ := p
    by_cases hk : k = k1
    · simp [alookup, hk] at h
    · simp only [alookup, if_neg hk] at h
      simpa [alookup, if_neg hk] using ih h

/-- Rotation contract of the `src/scheduled/analytics.rs` queue (the
variant whose clone/clear order is correct): a successful flush hands the
sink exactly the pre-rotation contents of both per-kind maps, and the
rotation leaves the buffer empty whether or not the write succeeds. -/
theorem scheduled_index_partition (s : Scheduled.AnalyticsQueue)
    (dbOk : Bool) :
    (Scheduled.index s true).1 = .ok ⟨s.views_queue, s.downloads_queue⟩
    ∧ (Scheduled.index s dbOk).2 = Scheduled.new := by
  constructor
  · simp only [Scheduled.index]
    split <;> rfl
  · simp only [Scheduled.index, Scheduled.new]
    split
    · cases dbOk <;> rfl
    · rfl

/-- One `add_view` on the `src/scheduled/analytics.rs` queue increments
the stored count of its own key by exactly one (counting an absent key as
zero). -/
theorem scheduled_add_view_count (s : Scheduled.AnalyticsQueue)
    (project_id : Option Nat) (site_path : String) :
    alookup (Scheduled.add_view s project_id site_path).views_queue
        ⟨project_id, site_path⟩
      = some ((alookup s.views_queue ⟨project_id, site_path⟩).getD 0 + 1) := by
  simp only [Scheduled.add_view]
  cases hl : alookup s.views_queue ⟨project_id, site_path⟩ with
  | none => simpa using alookup_append_self _ _ 1 hl
  | some v => simpa using alookup_aupdate_self _ _ v (v + 1) hl

end Ariadne
